import Mathlib

/-!
A shallow embedding of the core game logic of the_snake.py: the grid
constants, the direction vectors, the Snake and Apple entities, keyboard
handling, and one iteration of the main game loop.  Rendering, the pygame
window and the clock are external collaborators and are not modelled;
the randomness of randint is modelled by passing the drawn values as
explicit arguments.
-/

-- Constants for field and grid sizes (the_snake.py, lines 6-9).
def SCREEN_WIDTH : Int := 640

def SCREEN_HEIGHT : Int := 480

def GRID_SIZE : Int := 20

def GRID_WIDTH : Int := SCREEN_WIDTH / GRID_SIZE

def GRID_HEIGHT : Int := SCREEN_HEIGHT / GRID_SIZE

/-- A pixel-coordinate pair, as the source stores positions. -/
abbrev Cell := Int × Int

-- Movement directions (lines 12-15).
def UP : Cell := (0, -1)

def DOWN : Cell := (0, 1)

def LEFT : Cell := (-1, 0)

def RIGHT : Cell := (1, 0)

/-- The snake entity: the fields assigned in Snake.__init__ (lines 134-141),
together with the position attribute inherited from GameObject (line 52),
which the Snake methods read (in reset) but never reassign. -/
structure Snake where
  position : Cell
  length : Nat
  direction : Cell
  next_direction : Option Cell
  positions : List Cell
  last : Option Cell
  deriving DecidableEq

/-- The snake produced by Snake.__init__: a single segment at the screen
center, moving RIGHT. -/
def Snake.init : Snake where
  position := (SCREEN_WIDTH / 2, SCREEN_HEIGHT / 2)
  length := 1
  direction := RIGHT
  next_direction := none
  positions := [(SCREEN_WIDTH / 2, SCREEN_HEIGHT / 2)]
  last := none

/-- Returns the current position of the snake's head (lines 207-209):
positions[0], totalised with a default for the empty list, which never
occurs in play. -/
def Snake.get_head_position (s : Snake) : Cell :=
  s.positions.headD (0, 0)

/-- Updates the direction to the pending one if set (lines 164-171). -/
def Snake.update_direction (s : Snake) : Snake :=
  match s.next_direction with
  | some d => { s with direction := d, next_direction := none }
  | none => s

/-- Wraps a tentative head position at the screen boundaries (lines 173-188).
Note the negative branches assign the full dimension, not the far in-range
column or row. -/
def Snake.handle_wrapping (step : Cell) : Cell :=
  let x0 := step.1
  let y0 := step.2
  let x := if x0 ≥ SCREEN_WIDTH then 0 else if x0 < 0 then SCREEN_WIDTH else x0
  let y := if y0 ≥ SCREEN_HEIGHT then 0 else if y0 < 0 then SCREEN_HEIGHT else y0
  (x, y)

/-- Moves the snake (lines 190-205): apply the pending direction, prepend the
wrapped new head, and pop the tail into last when the list exceeds length. -/
def Snake.move (s : Snake) : Snake :=
  let s1 := s.update_direction
  let start := s1.get_head_position
  let dir : Cell := (s1.direction.1 * GRID_SIZE, s1.direction.2 * GRID_SIZE)
  let step : Cell := (start.1 + dir.1, start.2 + dir.2)
  let ps := Snake.handle_wrapping step :: s1.positions
  if ps.length > s1.length then
    { s1 with positions := ps.dropLast, last := ps.getLast? }
  else
    { s1 with positions := ps }

/-- Resets the snake to its initial state (lines 211-229); the erase-drawing
part is rendering and is not modelled.  The position list becomes the single
cell stored in the position attribute. -/
def Snake.reset (s : Snake) : Snake :=
  { s with length := 1, direction := RIGHT, next_direction := none,
           positions := [s.position], last := none }

/-- Checks whether the head equals any cell of positions[2:] (lines 231-240). -/
def Snake.is_collision (s : Snake) : Bool :=
  (s.positions.drop 2).any fun segment => segment = s.get_head_position

/-- The snake updates performed by the eat branch of main (lines 293-294):
increment length and append a duplicate of the current tail cell. -/
def Snake.eat_step (s : Snake) : Snake :=
  { s with length := s.length + 1,
           positions := s.positions ++ [s.positions.getLastD (0, 0)] }

/-- The apple entity: a single position (lines 64-96). -/
structure Apple where
  position : Cell
  deriving DecidableEq

/-- Randomly assigns a new position (lines 88-96): the two values drawn by
randint(0, GRID_WIDTH - 1) and randint(0, GRID_HEIGHT - 1) are passed
explicitly.  The method takes no occupied-cells argument and excludes no
cell. -/
def Apple.randomize_position (a : Apple) (rx ry : Int) : Apple :=
  { a with position := (rx * GRID_SIZE, ry * GRID_SIZE) }

/-- The four arrow keys read by handle_keys (lines 256-264).  A quit event
terminates the process and every other event is ignored, so neither is
modelled. -/
inductive Key where
  | K_UP
  | K_DOWN
  | K_LEFT
  | K_RIGHT
  deriving DecidableEq

/-- The effect of one KEYDOWN event on the snake (lines 256-264): the pending
direction is set only when the requested direction is not the exact opposite
of the current one. -/
def handleKey (s : Snake) (k : Key) : Snake :=
  match k with
  | Key.K_UP => if s.direction ≠ DOWN then { s with next_direction := some UP } else s
  | Key.K_DOWN => if s.direction ≠ UP then { s with next_direction := some DOWN } else s
  | Key.K_LEFT => if s.direction ≠ RIGHT then { s with next_direction := some LEFT } else s
  | Key.K_RIGHT => if s.direction ≠ LEFT then { s with next_direction := some RIGHT } else s

/-- Processes the polled key events in order (lines 243-264). -/
def handle_keys (s : Snake) (events : List Key) : Snake :=
  events.foldl handleKey s

/-- The state owned by the game loop: the snake and the apple. -/
structure GameState where
  snake : Snake
  apple : Apple
  deriving DecidableEq

/-- One iteration of the while loop of main (lines 283-301), rendering and
clock dropped: handle the key events, move the snake, run the eat branch when
the head sits on the apple, then reset on self-collision.  In the source the
eat branch calls apple.randomize_position([snake.positions]), passing an
argument the method does not accept (a TypeError at run time); the model
performs the position update the call names, which ignores the occupied
cells either way. -/
def tick (g : GameState) (events : List Key) (rx ry : Int) : GameState :=
  let snake1 := (handle_keys g.snake events).move
  let p := if g.apple.position = snake1.get_head_position
    then (snake1.eat_step, g.apple.randomize_position rx ry)
    else (snake1, g.apple)
  let snake2 := if p.1.is_collision then p.1.reset else p.1
  { snake := snake2, apple := p.2 }

/-- The input phase of a tick as a standalone step, for stating orderings. -/
def keysPhase (g : GameState) (events : List Key) : GameState :=
  { g with snake := handle_keys g.snake events }

/-- The movement phase of a tick as a standalone step. -/
def movePhase (g : GameState) : GameState :=
  { g with snake := g.snake.move }

/-- The eat phase of a tick as a standalone step: when the head sits on the
apple, grow the snake and re-randomize the apple. -/
def eatPhase (g : GameState) (rx ry : Int) : GameState :=
  if g.apple.position = g.snake.get_head_position then
    { snake := g.snake.eat_step, apple := g.apple.randomize_position rx ry }
  else g

/-- The self-collision phase of a tick as a standalone step. -/
def collisionPhase (g : GameState) : GameState :=
  if g.snake.is_collision then { g with snake := g.snake.reset } else g

/-- The tick ordering the spec describes: compare the head to the apple and
grow/respawn first, check self-collision, and only then apply the movement of
that tick.  This definition follows the words of the spec, to be compared
with the tick translated from the source. -/
def tickEatThenMove (g : GameState) (events : List Key) (rx ry : Int) : GameState :=
  movePhase (collisionPhase (eatPhase (keysPhase g events) rx ry))

/-- The four legal movement directions. -/
def validDir (d : Cell) : Prop :=
  d = UP ∨ d = DOWN ∨ d = LEFT ∨ d = RIGHT

instance : DecidablePred validDir := fun d => by
  unfold validDir; infer_instance

/-- The reversal of a direction vector. -/
def opposite (d : Cell) : Cell := (-d.1, -d.2)

/-- The arrow key that requests a given direction. -/
def keyFor (d : Cell) : Key :=
  if d = UP then Key.K_UP
  else if d = DOWN then Key.K_DOWN
  else if d = LEFT then Key.K_LEFT
  else Key.K_RIGHT

-- Concrete states used to evaluate the code at particular inputs.

/-- A length-1 snake whose head sits in the rightmost column, moving RIGHT. -/
def snakeRightEdge : Snake :=
  ⟨(320, 240), 1, RIGHT, none, [(620, 240)], none⟩

/-- A length-1 snake whose head sits in the leftmost column, moving LEFT. -/
def snakeLeftEdge : Snake :=
  ⟨(320, 240), 1, LEFT, none, [(0, 240)], none⟩

/-- A length-1 snake whose head sits in the top row, moving UP. -/
def snakeTopEdge : Snake :=
  ⟨(320, 240), 1, UP, none, [(320, 0)], none⟩

/-- A length-1 snake whose head sits in the bottom row, moving DOWN. -/
def snakeBottomEdge : Snake :=
  ⟨(320, 240), 1, DOWN, none, [(320, 460)], none⟩

/-- A length-2 snake whose two cells coincide. -/
def snakeTwoCells : Snake :=
  ⟨(320, 240), 2, RIGHT, none, [(100, 100), (100, 100)], none⟩

/-- The freshly constructed game state with the apple placed on the snake's
starting cell. -/
def gAppleAtStart : GameState := ⟨Snake.init, ⟨(320, 240)⟩⟩

/-- The freshly constructed game state with the apple one cell to the right
of the snake, so the first move eats it. -/
def gHeadOnApple : GameState := ⟨Snake.init, ⟨(340, 240)⟩⟩

/-- A length-5 snake one move away from running into its own body. -/
def snakeLoop : Snake :=
  ⟨(320, 240), 5, RIGHT, none,
   [(120, 100), (120, 120), (140, 120), (140, 100), (160, 100)], none⟩

/-- A game state whose next tick detects a self-collision, with the apple
sitting on the screen center. -/
def gCollision : GameState := ⟨snakeLoop, ⟨(320, 240)⟩⟩

-- Helper lemmas about the embedded operations.

theorem handle_keys_cons (s : Snake) (k : Key) (ks : List Key) :
    handle_keys s (k :: ks) = handle_keys (handleKey s k) ks := rfl

theorem handleKey_direction (s : Snake) (k : Key) :
    (handleKey s k).direction = s.direction := by
  cases k <;> simp only [handleKey] <;> split <;> rfl

theorem handleKey_positions (s : Snake) (k : Key) :
    (handleKey s k).positions = s.positions := by
  cases k <;> simp only [handleKey] <;> split <;> rfl

theorem handleKey_length (s : Snake) (k : Key) :
    (handleKey s k).length = s.length := by
  cases k <;> simp only [handleKey] <;> split <;> rfl

theorem handle_keys_direction (events : List Key) (s : Snake) :
    (handle_keys s events).direction = s.direction := by
  induction events generalizing s with
  | nil => rfl
  | cons k ks ih => rw [handle_keys_cons, ih, handleKey_direction]

theorem handle_keys_positions (events : List Key) (s : Snake) :
    (handle_keys s events).positions = s.positions := by
  induction events generalizing s with
  | nil => rfl
  | cons k ks ih => rw [handle_keys_cons, ih, handleKey_positions]

theorem handle_keys_length (events : List Key) (s : Snake) :
    (handle_keys s events).length = s.length := by
  induction events generalizing s with
  | nil => rfl
  | cons k ks ih => rw [handle_keys_cons, ih, handleKey_length]

theorem update_direction_positions (s : Snake) :
    (s.update_direction).positions = s.positions := by
  cases h : s.next_direction <;> simp [Snake.update_direction, h]

theorem update_direction_length (s : Snake) :
    (s.update_direction).length = s.length := by
  cases h : s.next_direction <;> simp [Snake.update_direction, h]

theorem update_direction_none (s : Snake) (h : s.next_direction = none) :
    (s.update_direction).direction = s.direction := by
  simp [Snake.update_direction, h]

theorem update_direction_some (s : Snake) (nd : Cell) (h : s.next_direction = some nd) :
    (s.update_direction).direction = nd := by
  simp [Snake.update_direction, h]

theorem move_direction (s : Snake) :
    (s.move).direction = (s.update_direction).direction := by
  simp only [Snake.move]
  split <;> rfl

theorem move_length (s : Snake) : (s.move).length = s.length := by
  simp only [Snake.move]
  split <;> simp [update_direction_length]

theorem move_positions_length (s : Snake) (h : s.positions.length = s.length) :
    (s.move).positions.length = s.length := by
  simp only [Snake.move]
  split
  · simp [update_direction_positions, update_direction_length, h]
  · next h2 =>
      exfalso
      apply h2
      simp [update_direction_positions, update_direction_length, h]

theorem opposite_opposite (d : Cell) : opposite (opposite d) = d := by
  cases d
  simp [opposite]

theorem ne_opposite_of_ne (a d : Cell) (h : d ≠ opposite a) : a ≠ opposite d := by
  intro heq
  apply h
  rw [heq, opposite_opposite]

theorem validDir_ne_opposite (d : Cell) (h : validDir d) : d ≠ opposite d := by
  rcases h with h | h | h | h <;> subst h <;> decide

theorem handleKey_pending (s : Snake) (k : Key)
    (h : ∀ m, s.next_direction = some m → m ≠ opposite s.direction) :
    ∀ m, (handleKey s k).next_direction = some m → m ≠ opposite s.direction := by
  have hU : opposite UP = DOWN := by decide
  have hD : opposite DOWN = UP := by decide
  have hL : opposite LEFT = RIGHT := by decide
  have hR : opposite RIGHT = LEFT := by decide
  cases k <;> simp only [handleKey] <;> split <;>
    first
      | exact h
      | (intro m hm
         obtain rfl : _ = m := by simpa using hm
         apply ne_opposite_of_ne
         simp only [hU, hD, hL, hR]
         assumption)

theorem handle_keys_pending (events : List Key) (s : Snake)
    (h : ∀ m, s.next_direction = some m → m ≠ opposite s.direction) :
    ∀ m, (handle_keys s events).next_direction = some m → m ≠ opposite s.direction := by
  induction events generalizing s with
  | nil => exact h
  | cons k ks ih =>
      have hd := handleKey_direction s k
      have h2 : ∀ m, (handleKey s k).next_direction = some m →
          m ≠ opposite (handleKey s k).direction := by
        rw [hd]
        exact handleKey_pending s k h
      intro m hm
      rw [handle_keys_cons] at hm
      have h3 := ih (handleKey s k) h2 m hm
      rwa [hd] at h3

theorem move_eq_of_trim (t : Snake) (h : t.length ≤ t.positions.length) :
    ∃ hd : Cell, t.move = { t.update_direction with
      positions := (hd :: t.positions).dropLast,
      last := (hd :: t.positions).getLast? } := by
  simp only [Snake.move]
  split
  · next hcond =>
      exact ⟨Snake.handle_wrapping
          (t.update_direction.get_head_position.1 + t.update_direction.direction.1 * GRID_SIZE,
           t.update_direction.get_head_position.2 + t.update_direction.direction.2 * GRID_SIZE),
        by rw [update_direction_positions]⟩
  · next hcond =>
      exfalso
      apply hcond
      simp only [update_direction_positions, update_direction_length, List.length_cons]
      omega

/-- C1: evaluating the wrap behaviour at the four edges of the grid.  Moving
RIGHT from the rightmost column and DOWN from the bottom row wrap to 0 as
the claim states, but moving LEFT from x = 0 yields x = SCREEN_WIDTH and
moving UP from y = 0 yields y = SCREEN_HEIGHT: the off-screen full-dimension
value, not the far in-range edge cell that the claimed formula
(old + delta + dimension) % dimension produces. -/
theorem C1_wrap_bug :
    (snakeRightEdge.move).get_head_position = (0, 240) ∧
    (snakeBottomEdge.move).get_head_position = (320, 0) ∧
    (snakeLeftEdge.move).get_head_position = (SCREEN_WIDTH, 240) ∧
    (snakeTopEdge.move).get_head_position = (320, SCREEN_HEIGHT) ∧
    (0 + -1 * GRID_SIZE + SCREEN_WIDTH) % SCREEN_WIDTH = SCREEN_WIDTH - GRID_SIZE ∧
    SCREEN_WIDTH ≠ SCREEN_WIDTH - GRID_SIZE := by
  decide

/-- C2: the claim states the eat branch's apple re-randomization never lands
on a cell of the snake.  One tick from the start state with the apple one
cell to the right of the snake (so the first move eats it), with the
in-range random draw (17, 12), puts the new apple on a cell of the snake. -/
theorem C2_respawn_bug :
    0 ≤ (17 : Int) ∧ (17 : Int) ≤ GRID_WIDTH - 1 ∧
    0 ≤ (12 : Int) ∧ (12 : Int) ≤ GRID_HEIGHT - 1 ∧
    (tick gHeadOnApple [] 17 12).apple.position ∈
      (tick gHeadOnApple [] 17 12).snake.positions := by
  decide

/-- C3: the claim states every cell held in positions stays inside the grid,
with x in [0, SCREEN_WIDTH).  From the in-range head (0, 240), one move LEFT
produces the head (SCREEN_WIDTH, 240), whose x coordinate is outside the
claimed range. -/
theorem C3_range_bug :
    0 ≤ (snakeLeftEdge.get_head_position).1 ∧
    (snakeLeftEdge.get_head_position).1 < SCREEN_WIDTH ∧
    ((snakeLeftEdge.move).get_head_position).1 = SCREEN_WIDTH ∧
    ¬ ((snakeLeftEdge.move).get_head_position).1 < SCREEN_WIDTH ∧
    (snakeLeftEdge.move).get_head_position ∈ (snakeLeftEdge.move).positions := by
  decide

/-- C4 counterexample: with the apple on the snake's starting cell, the tick
translated from the source differs from the eat-before-move composition the
claim describes: the source tick moves first, so the head leaves the apple
and no eating happens, while the claimed ordering eats immediately. -/
theorem C4_counterexample :
    tick gAppleAtStart [] 0 0 ≠ tickEatThenMove gAppleAtStart [] 0 0 := by
  decide

/-- C4 amended: in each game-loop tick the movement is applied first; the eat
check compares the post-move head to the apple and growth and apple respawn
happen after the move, followed by the self-collision check. -/
theorem C4_move_then_eat (g : GameState) (events : List Key) (rx ry : Int) :
    tick g events rx ry =
      collisionPhase (eatPhase (movePhase (keysPhase g events)) rx ry) := by
  simp only [tick, keysPhase, movePhase, eatPhase, collisionPhase]
  by_cases hc : g.apple.position = ((handle_keys g.snake events).move).get_head_position
  · by_cases hcol : (((handle_keys g.snake events).move).eat_step).is_collision = true <;>
      simp [hc, hcol]
  · by_cases hcol : ((handle_keys g.snake events).move).is_collision = true <;>
      simp [hc, hcol]

/-- C5 counterexample: at the start state the eat branch immediately changes
the position list (it appends a duplicate of the tail cell), and on the
following move the trim condition holds and a cell is popped into last, so
growth is not implemented by a length increment alone with the trim failing
once. -/
theorem C5_counterexample :
    (Snake.init.eat_step).positions ≠ Snake.init.positions ∧
    ((Snake.init.eat_step).move).last = some (320, 240) ∧
    Snake.init.last = none := by
  decide

/-- C5 amended: after the head coincides with the apple, the eat branch
increments length by 1 and appends a duplicate of the tail cell; on the next
move the trim condition holds and pops the duplicate, so length increases by
exactly 1, the position list gains exactly the new head, and the old tail
cell is retained. -/
theorem C5_growth (s : Snake) (hlen : s.positions.length = s.length)
    (hne : s.positions ≠ []) :
    ((s.eat_step).move).length = s.length + 1 ∧
    ((s.eat_step).move).positions.length = s.positions.length + 1 ∧
    ((s.eat_step).move).positions.tail = s.positions ∧
    ((s.eat_step).move).last = s.positions.getLast? := by
  rcases List.eq_nil_or_concat' s.positions with h0 | ⟨P, b, h0⟩
  · exact absurd h0 hne
  have hb : s.positions.getLastD (0, 0) = b := by
    rw [h0, List.getLastD_concat]
  have hb2 : s.positions.getLast? = some b := by
    rw [h0]
    exact List.getLast?_concat P
  have hps : (s.eat_step).positions = s.positions ++ [b] := by
    simp only [Snake.eat_step]
    rw [hb]
  obtain ⟨hd, hm⟩ := move_eq_of_trim (s.eat_step)
    (by simp [Snake.eat_step, hlen])
  refine ⟨?_, ?_, ?_, ?_⟩
  · rw [move_length]
    rfl
  · rw [hm]
    simp only [hps]
    rw [show hd :: (s.positions ++ [b]) = (hd :: s.positions) ++ [b] from rfl,
        List.dropLast_concat]
    simp
  · rw [hm]
    simp only [hps]
    rw [show hd :: (s.positions ++ [b]) = (hd :: s.positions) ++ [b] from rfl,
        List.dropLast_concat]
    simp
  · rw [hm]
    simp only [hps]
    rw [show hd :: (s.positions ++ [b]) = (hd :: s.positions) ++ [b] from rfl,
        List.getLast?_concat, hb2]

theorem C5_witness :
    (Snake.init.positions.length = Snake.init.length ∧ Snake.init.positions ≠ []) ∧
    (((Snake.init.eat_step).move).length = Snake.init.length + 1 ∧
      ((Snake.init.eat_step).move).positions.length = Snake.init.positions.length + 1 ∧
      ((Snake.init.eat_step).move).positions.tail = Snake.init.positions ∧
      ((Snake.init.eat_step).move).last = Snake.init.positions.getLast?) :=
  ⟨⟨rfl, by decide⟩, C5_growth Snake.init rfl (by decide)⟩

/-- C6 counterexample: a tick that detects a self-collision resets the snake
but leaves the apple untouched; here the apple even ends up on the reset
snake's only cell, so no respawn away from the reset snake happened. -/
theorem C6_counterexample :
    ((handle_keys gCollision.snake []).move).is_collision = true ∧
    (tick gCollision [] 0 0).apple = gCollision.apple ∧
    (tick gCollision [] 0 0).apple.position ∈ (tick gCollision [] 0 0).snake.positions := by
  decide

/-- C6 amended: in every tick in which the snake (after its move, with no
eating) detects a self-collision, the game loop resets the snake to its
initial state and does not respawn the apple: the apple keeps its position. -/
theorem C6_reset_keeps_apple (g : GameState) (events : List Key) (rx ry : Int)
    (hne : g.apple.position ≠ ((handle_keys g.snake events).move).get_head_position)
    (hcol : ((handle_keys g.snake events).move).is_collision = true) :
    tick g events rx ry =
      { snake := ((handle_keys g.snake events).move).reset, apple := g.apple } := by
  simp only [tick]
  rw [if_neg hne]
  simp [hcol]

theorem C6_witness :
    (gCollision.apple.position ≠ ((handle_keys gCollision.snake []).move).get_head_position ∧
      ((handle_keys gCollision.snake []).move).is_collision = true) ∧
    tick gCollision [] 0 0 =
      { snake := ((handle_keys gCollision.snake []).move).reset, apple := gCollision.apple } :=
  ⟨⟨by decide, by decide⟩, C6_reset_keeps_apple gCollision [] 0 0 (by decide) (by decide)⟩

/-- C7: requesting the exact opposite of the current direction is silently
ignored, so the direction after the next move is unchanged; and from any
state whose pending direction is not the reversal of the current one (as
every state reachable through handle_keys is), the direction a move applies
is never the reversal of the direction before it, whatever key events
arrive. -/
theorem C7_no_reversal :
    (∀ s : Snake, validDir s.direction → s.next_direction = none →
      (handle_keys s [keyFor (opposite s.direction)]).next_direction = none ∧
      ((handle_keys s [keyFor (opposite s.direction)]).move).direction = s.direction) ∧
    (∀ (s : Snake) (events : List Key), validDir s.direction →
      (∀ nd, s.next_direction = some nd → nd ≠ opposite s.direction) →
      ((handle_keys s events).move).direction ≠ opposite s.direction) := by
  constructor
  · intro s hv hn
    have hrej : handle_keys s [keyFor (opposite s.direction)] = s := by
      rcases hv with h | h | h | h
      · have hk : keyFor (opposite UP) = Key.K_DOWN := by decide
        rw [h, hk]
        simp [handle_keys, handleKey, h]
      · have hk : keyFor (opposite DOWN) = Key.K_UP := by decide
        rw [h, hk]
        simp [handle_keys, handleKey, h]
      · have hk : keyFor (opposite LEFT) = Key.K_RIGHT := by decide
        rw [h, hk]
        simp [handle_keys, handleKey, h]
      · have hk : keyFor (opposite RIGHT) = Key.K_LEFT := by decide
        rw [h, hk]
        simp [handle_keys, handleKey, h]
    rw [hrej]
    exact ⟨hn, by rw [move_direction, update_direction_none s hn]⟩
  · intro s events hv hp
    rw [move_direction]
    cases hnd : (handle_keys s events).next_direction with
    | none =>
        rw [update_direction_none _ hnd, handle_keys_direction]
        exact validDir_ne_opposite s.direction hv
    | some nd =>
        rw [update_direction_some _ nd hnd]
        exact handle_keys_pending events s hp nd hnd

theorem C7_witness :
    (validDir Snake.init.direction ∧ Snake.init.next_direction = none) ∧
    ((handle_keys Snake.init [keyFor (opposite Snake.init.direction)]).next_direction = none ∧
      ((handle_keys Snake.init [keyFor (opposite Snake.init.direction)]).move).direction
        = Snake.init.direction) :=
  ⟨⟨by decide, rfl⟩, C7_no_reversal.1 Snake.init (by decide) rfl⟩

/-- C8: a snake whose position list holds at most two cells can never report
a self-collision, whatever those cells are: the scan over positions[2:] is
empty. -/
theorem C8_short_snake (s : Snake) (h : s.positions.length ≤ 2) :
    s.is_collision = false := by
  unfold Snake.is_collision
  rw [List.drop_eq_nil_of_le h]
  rfl

theorem C8_witness :
    snakeTwoCells.positions.length ≤ 2 ∧ snakeTwoCells.is_collision = false :=
  ⟨by decide, C8_short_snake snakeTwoCells (by decide)⟩

/-- C9: for every snake whose stored home position is the initial center cell
(as it is for every snake the game constructs), reset yields length 1,
direction RIGHT, no pending direction, the single-cell position list at the
center, and a cleared last. -/
theorem C9_reset_state (s : Snake)
    (h : s.position = (SCREEN_WIDTH / 2, SCREEN_HEIGHT / 2)) :
    (s.reset).length = 1 ∧ (s.reset).direction = RIGHT ∧
    (s.reset).next_direction = none ∧
    (s.reset).positions = [(SCREEN_WIDTH / 2, SCREEN_HEIGHT / 2)] ∧
    (s.reset).last = none :=
  ⟨rfl, rfl, rfl, by simp [Snake.reset, h], rfl⟩

theorem C9_witness :
    (Snake.init.move).position = (SCREEN_WIDTH / 2, SCREEN_HEIGHT / 2) ∧
    (((Snake.init.move).reset).length = 1 ∧ ((Snake.init.move).reset).direction = RIGHT ∧
      ((Snake.init.move).reset).next_direction = none ∧
      ((Snake.init.move).reset).positions = [(SCREEN_WIDTH / 2, SCREEN_HEIGHT / 2)] ∧
      ((Snake.init.move).reset).last = none) :=
  ⟨by decide, C9_reset_state Snake.init.move (by decide)⟩

/-- C10: the equality between the number of occupied cells and the length
target holds after construction and after reset, and is preserved by every
game-loop tick: the move pops exactly one cell, the eat branch adds one cell
and one unit of length, and a reset restores both to 1. -/
theorem C10_length_invariant :
    Snake.init.positions.length = Snake.init.length ∧
    (∀ s : Snake, (s.reset).positions.length = (s.reset).length) ∧
    (∀ (g : GameState) (events : List Key) (rx ry : Int),
      g.snake.positions.length = g.snake.length →
      (tick g events rx ry).snake.positions.length = (tick g events rx ry).snake.length) := by
  refine ⟨rfl, fun s => rfl, ?_⟩
  intro g events rx ry h
  have hk : (handle_keys g.snake events).positions.length
      = (handle_keys g.snake events).length := by
    rw [handle_keys_positions, handle_keys_length, h]
  have hml := move_length (handle_keys g.snake events)
  have hmp := move_positions_length (handle_keys g.snake events) hk
  simp only [tick]
  by_cases hc : g.apple.position = ((handle_keys g.snake events).move).get_head_position
  · have he1 : (((handle_keys g.snake events).move).eat_step).positions.length
        = (((handle_keys g.snake events).move).eat_step).length := by
      simp [Snake.eat_step, hmp, hml]
    by_cases hcol : (((handle_keys g.snake events).move).eat_step).is_collision = true <;>
      simp [hc, hcol, Snake.reset, he1]
  · have he2 : ((handle_keys g.snake events).move).positions.length
        = ((handle_keys g.snake events).move).length := by rw [hmp, hml]
    by_cases hcol : ((handle_keys g.snake events).move).is_collision = true <;>
      simp [hc, hcol, Snake.reset, he2]

theorem C10_witness :
    gCollision.snake.positions.length = gCollision.snake.length ∧
    (tick gCollision [] 0 0).snake.positions.length
      = (tick gCollision [] 0 0).snake.length :=
  ⟨by decide, C10_length_invariant.2.2 gCollision [] 0 0 (by decide)⟩
